import Mathlib

/-!
Verification of the monitoring-room paginated query controller of
`src/pages/CheckerMonitoringRoom.tsx`.

Strings are modelled as `List Char` (`Str`).  Character-level operations
(`trim`, `toUpperCase`, …) model the ASCII behaviour of the JavaScript
originals, which is the range all inputs of interest live in.  The remote
Record Store (Supabase/PostgREST) is modelled as in-memory lists of rows;
query-builder chains are translated into boolean row predicates using SQL
three-valued logic collapsed to "row passes" booleans: a comparison whose
column value is NULL is unknown, and an unknown WHERE condition does not
return the row, so it is modelled as `false`.
-/

namespace Front

abbrev Str := List Char

/-- ASCII whitespace, the forms relevant to the inputs at hand (JS `trim`
also strips further Unicode space code points, which never occur here). -/
def isWsChar (c : Char) : Bool :=
  c = ' ' || c = '\t' || c = '\n' || c = '\r'

/-- JavaScript `String.prototype.trim` (ASCII model). -/
def trim (s : Str) : Str :=
  ((s.dropWhile isWsChar).reverse.dropWhile isWsChar).reverse

def isAsciiUpper (c : Char) : Bool := 'A' ≤ c && c ≤ 'Z'
def isAsciiLower (c : Char) : Bool := 'a' ≤ c && c ≤ 'z'
def isAsciiDigit (c : Char) : Bool := '0' ≤ c && c ≤ '9'
def isAsciiAlpha (c : Char) : Bool := isAsciiUpper c || isAsciiLower c
def isAsciiAlnum (c : Char) : Bool := isAsciiAlpha c || isAsciiDigit c

/-- ASCII model of JS `toUpperCase` on one character. -/
def upChar (c : Char) : Char :=
  if isAsciiLower c then Char.ofNat (c.toNat - 32) else c

/-- ASCII model of JS `toLowerCase` on one character. -/
def lowChar (c : Char) : Char :=
  if isAsciiUpper c then Char.ofNat (c.toNat + 32) else c

def upStr (s : Str) : Str := s.map upChar
def lowStr (s : Str) : Str := s.map lowChar

/-- `needle` is a leading run of `hay`. -/
def leadsIn : Str → Str → Bool
  | [], _ => true
  | _ :: _, [] => false
  | a :: as, b :: bs => a = b && leadsIn as bs

/-- `needle` occurs contiguously inside `hay`. -/
def segIn (needle : Str) : Str → Bool
  | [] => leadsIn needle []
  | c :: rest => leadsIn needle (c :: rest) || segIn needle rest

/-- SQL `hay ILIKE '%needle%'` for a metacharacter-free needle:
case-insensitive containment. -/
def ciContains (hay needle : Str) : Bool :=
  segIn (lowStr needle) (lowStr hay)

/-- Strict lexicographic order on strings (by code point), modelling the
server-side ordering of same-format ISO timestamp strings, which agrees
with their chronological order. -/
def strLtB : Str → Str → Bool
  | [], [] => false
  | [], _ :: _ => true
  | _ :: _, [] => false
  | a :: as, b :: bs => if a = b then strLtB as bs else decide (a < b)

/-! ## JavaScript `Number(string)` conversion

`Number` on a string trims it, yields `0` on the empty string, `NaN` on
anything that is not a numeric literal, and otherwise the numeric value:
an optionally signed decimal literal (with optional fraction and
exponent) or `Infinity`, or an unsigned hex/octal/binary literal.  The
value is modelled exactly, as a scaled decimal `mant * 10 ^ exp10`,
rather than as a 64-bit float; the inputs appearing in the claims are
exactly representable either way.  `ScaledDec.toRat` gives the numeric
value and `scaledEq` decides numeric equality executably. -/

structure ScaledDec where
  mant : Int
  exp10 : Int
deriving DecidableEq, Repr

def ScaledDec.toRat (x : ScaledDec) : ℚ :=
  (x.mant : ℚ) * (10 : ℚ) ^ x.exp10

/-- Numeric equality of two scaled decimals, by cross-scaling the
mantissas. -/
def scaledEq (x y : ScaledDec) : Bool :=
  if y.exp10 ≤ x.exp10 then
    decide (x.mant * 10 ^ (x.exp10 - y.exp10).toNat = y.mant)
  else
    decide (x.mant = y.mant * 10 ^ (y.exp10 - x.exp10).toNat)

inductive JsNum where
  | fin (x : ScaledDec)
  | posInf
  | negInf
deriving DecidableEq, Repr

def digitVal (c : Char) : Nat := c.toNat - '0'.toNat

def parseNatDigits (s : Str) : Option Nat :=
  if s ≠ [] && s.all isAsciiDigit then
    some (s.foldl (fun a c => a * 10 + digitVal c) 0)
  else none

def isHexDigit (c : Char) : Bool :=
  isAsciiDigit c || ('a' ≤ c && c ≤ 'f') || ('A' ≤ c && c ≤ 'F')

def hexVal (c : Char) : Nat :=
  if isAsciiDigit c then digitVal c
  else if 'a' ≤ c && c ≤ 'f' then c.toNat - 'a'.toNat + 10
  else c.toNat - 'A'.toNat + 10

def parseRadixDigits (ok : Char → Bool) (val : Char → Nat) (radix : Nat)
    (s : Str) : Option Nat :=
  if s ≠ [] && s.all ok then
    some (s.foldl (fun a c => a * radix + val c) 0)
  else none

/-- Signed decimal exponent part after the `e`/`E`. -/
def parseExponent (s : Str) : Option Int :=
  match s with
  | '+' :: rest => (parseNatDigits rest).map (fun n => (n : Int))
  | '-' :: rest => (parseNatDigits rest).map (fun n => -(n : Int))
  | _ => (parseNatDigits s).map (fun n => (n : Int))

/-- Unsigned decimal mantissa: `digits`, `digits.`, `digits.digits` or
`.digits`, as the scaled decimal `(ip*10^|fp| + fp) * 10^-|fp|`. -/
def parseMantissa (s : Str) : Option ScaledDec :=
  let ip := s.takeWhile (fun c => c ≠ '.')
  let rest := s.dropWhile (fun c => c ≠ '.')
  match rest with
  | [] =>
      (parseNatDigits ip).map (fun n => ⟨(n : Int), 0⟩)
  | _ :: fp =>
      if ip = [] && fp = [] then none
      else if ip.all isAsciiDigit && fp.all isAsciiDigit && fp.all (fun c => c ≠ '.') then
        let ipv : Nat := ip.foldl (fun a c => a * 10 + digitVal c) 0
        let fpv : Nat := fp.foldl (fun a c => a * 10 + digitVal c) 0
        some ⟨(ipv : Int) * 10 ^ fp.length + (fpv : Int), -(fp.length : Int)⟩
      else none

/-- Unsigned decimal literal with optional exponent. -/
def parseDecimalLit (s : Str) : Option ScaledDec :=
  let mant := s.takeWhile (fun c => c ≠ 'e' && c ≠ 'E')
  let rest := s.dropWhile (fun c => c ≠ 'e' && c ≠ 'E')
  match rest with
  | [] => parseMantissa mant
  | _ :: expPart =>
      match parseMantissa mant, parseExponent expPart with
      | some m, some e => some ⟨m.mant, m.exp10 + e⟩
      | _, _ => none

/-- Unsigned numeric literal: `Infinity`, `0x…`/`0o…`/`0b…`, or decimal. -/
def parseUnsigned (s : Str) : Option JsNum :=
  if s = "Infinity".data then some .posInf
  else
    match s with
    | '0' :: x :: rest =>
        if x = 'x' || x = 'X' then
          (parseRadixDigits isHexDigit hexVal 16 rest).map
            (fun n => .fin ⟨(n : Int), 0⟩)
        else if x = 'o' || x = 'O' then
          (parseRadixDigits (fun c => '0' ≤ c && c ≤ '7') digitVal 8 rest).map
            (fun n => .fin ⟨(n : Int), 0⟩)
        else if x = 'b' || x = 'B' then
          (parseRadixDigits (fun c => c = '0' || c = '1') digitVal 2 rest).map
            (fun n => .fin ⟨(n : Int), 0⟩)
        else (parseDecimalLit s).map .fin
    | _ => (parseDecimalLit s).map .fin

/-- Signed decimal literal or `Infinity`; a sign before a hex/octal/binary
literal is `NaN` in JS, which falls out because the signed branch only
accepts decimal forms. -/
def jsNumber (s0 : Str) : Option JsNum :=
  let s := trim s0
  if s = [] then some (.fin ⟨0, 0⟩)
  else
    match s with
    | '+' :: rest =>
        if rest = "Infinity".data then some .posInf
        else (parseDecimalLit rest).map .fin
    | '-' :: rest =>
        if rest = "Infinity".data then some .negInf
        else (parseDecimalLit rest).map (fun x => .fin ⟨-x.mant, x.exp10⟩)
    | _ => parseUnsigned s

/-! ## Domain model (src/pages/CheckerMonitoringRoom.tsx)

Rows of the `vat_checker_numbers` table (`MonitoredNumber`) and of the
`vat_checker_numbers_checks` table.  Columns that the queries compare
against and that can be NULL in the store are `Option`-typed.  The
open-ended `reference` JSONB blob is modelled by the record of the text
fields (`reference->>field`) that the queries extract; an absent field is
`none`. -/

inductive Periodicity where
  | daily | weekly | monthly | inactive
deriving DecidableEq, Repr

def periodicityStr : Periodicity → Str
  | .daily => "daily".data
  | .weekly => "weekly".data
  | .monthly => "monthly".data
  | .inactive => "inactive".data

/-- `normalizePeriodicity`: the four enum values map to themselves, any
other value (including null/undefined) defaults to `daily`. -/
def normalizePeriodicity (value : Option Str) : Periodicity :=
  match value with
  | some v =>
      if v = "daily".data then .daily
      else if v = "weekly".data then .weekly
      else if v = "monthly".data then .monthly
      else if v = "inactive".data then .inactive
      else .daily
  | none => .daily

/-- `sanitizeSearchTerm`: trim, strip `%` and `_`, replace commas with
spaces. -/
def sanitizeSearchTerm (value : Str) : Str :=
  (((trim value).filter (fun c => !(c = '%' || c = '_'))).map
    (fun c => if c = ',' then ' ' else c))

/-- `normalizeVatInput`: drop every character outside `[a-zA-Z0-9]`, then
uppercase. -/
def normalizeVatInput (value : Str) : Str :=
  upStr (value.filter isAsciiAlnum)

/-- Regex `^[A-Z]{2}[A-Z0-9]{2,14}$`. -/
def isVatLike (value : Str) : Bool :=
  match value with
  | a :: b :: rest =>
      isAsciiUpper a && isAsciiUpper b &&
      decide (2 ≤ rest.length) && decide (rest.length ≤ 14) &&
      rest.all (fun c => isAsciiUpper c || isAsciiDigit c)
  | _ => false

/-- Regex `^[A-Z]{2}$`. -/
def isIsoCountryCodeLike (value : Str) : Bool :=
  match value with
  | [a, b] => isAsciiUpper a && isAsciiUpper b
  | _ => false

/-- Regex `^\d{4}-\d{2}-\d{2}$`. -/
def isIsoDate (value : Str) : Bool :=
  match value with
  | [y1, y2, y3, y4, h1, m1, m2, h2, d1, d2] =>
      isAsciiDigit y1 && isAsciiDigit y2 && isAsciiDigit y3 && isAsciiDigit y4 &&
      h1 = '-' && isAsciiDigit m1 && isAsciiDigit m2 &&
      h2 = '-' && isAsciiDigit d1 && isAsciiDigit d2
  | _ => false

def isLeapYear (y : Nat) : Bool :=
  (y % 4 = 0 && y % 100 ≠ 0) || y % 400 = 0

def daysInMonth (y m : Nat) : Nat :=
  if m = 2 then (if isLeapYear y then 29 else 28)
  else if m = 4 || m = 6 || m = 9 || m = 11 then 30
  else 31

def padDigits (width n : Nat) : Str :=
  let ds := Nat.toDigits 10 n
  List.replicate (width - ds.length) '0' ++ ds

/-- `getNextIsoDate`: the UTC calendar day after an ISO `YYYY-MM-DD`
date, formatted the same way (defined on valid calendar dates; the JS
original goes through `Date` and throws on invalid ones). -/
def getNextIsoDate (isoDate : Str) : Str :=
  let y := (parseNatDigits (isoDate.take 4)).getD 0
  let m := (parseNatDigits ((isoDate.drop 5).take 2)).getD 0
  let d := (parseNatDigits (isoDate.drop 8)).getD 0
  let (y2, m2, d2) :=
    if d < daysInMonth y m then (y, m, d + 1)
    else if m < 12 then (y, m + 1, 1)
    else (y + 1, 1, 1)
  padDigits 4 y2 ++ ['-'] ++ padDigits 2 m2 ++ ['-'] ++ padDigits 2 d2

/-- `normalizedRequester.match(/^([A-Z]{2})([A-Z0-9]{2,14})$/)`: the
2-letter country part and the 2–14 character remainder. -/
def vatPatternSplit (s : Str) : Option (Str × Str) :=
  if isVatLike s then some (s.take 2, s.drop 2) else none

structure RefBlob where
  status : Option Str := none
  name : Option Str := none
  nom_complet : Option Str := none
  counterpart_name : Option Str := none
  address : Option Str := none
  counterpart_address : Option Str := none
  counterpart_address_line : Option Str := none
  counterpart_address_city : Option Str := none
  counterpart_address_postal_code : Option Str := none
  counterpart_address_country : Option Str := none
deriving DecidableEq, Repr

/-- A `vat_checker_numbers` row (`MonitoredNumber`), including the
client-side `last_check_*` fields filled in by enrichment. -/
structure VatRow where
  uuid : Str
  country_code : Str := []
  vat_number : Str := []
  country_code_requester : Option Str := none
  vat_number_requester : Option Str := none
  periodicity : Option Str := none
  number_of_checks : Option Int := none
  created_at : Str := []
  last_check_date : Option Str := none
  reference : RefBlob := {}
  last_check_valid : Option Bool := none
  last_check_checked_at : Option Str := none
  last_check_name : Option Str := none
deriving DecidableEq, Repr

/-- A `vat_checker_numbers_checks` row, restricted to the columns the
monitoring-room queries touch. -/
structure CheckRow where
  vat_number_uuid : Option Str := none
  valid : Option Bool := none
  vat_check_date : Option Str := none
  name : Option Str := none
  address : Option Str := none
  vat_number_check : Option Str := none
  country_code_check : Option Str := none
deriving DecidableEq, Repr

/-- The remote Record Store: the two collections the view queries. -/
structure Db where
  vatNumbers : List VatRow
  checks : List CheckRow
deriving Repr

inductive StatusFilter where
  | all | pending | inactive | active | deleted
deriving DecidableEq, Repr

/-- The per-column filter values (`filters` state); the empty string is
an absent filter, as in the component.  Keys are the `COL_KEYS`. -/
structure ColumnFilters where
  country_code : Str := []
  vat_number : Str := []
  entity_name : Str := []
  created_at : Str := []
  last_check_date : Str := []
  number_of_checks : Str := []
  periodicity : Str := []
deriving DecidableEq, Repr

/-- The filtering fields of the client query state; `requesterFilter`
holds the raw selector value (`"__all__"` sentinel included). -/
structure QueryState where
  search : Str := []
  filters : ColumnFilters := {}
  requesterFilter : Str := "__all__".data
  statusFilter : StatusFilter := .all
  pageSize : Nat := 15
deriving DecidableEq, Repr

def allSentinel : Str := "__all__".data

/-! ## PostgREST predicates as row booleans

A condition on a NULL column is SQL-unknown and does not return the row,
so every comparison below is `false` on `none`.  `not.eq` compiles to
`NOT (col = v)`, which is likewise unknown — hence false — on NULL. -/

def sqlEqText (col : Option Str) (v : Str) : Bool :=
  match col with
  | some s => s = v
  | none => false

/-- `neq` (`col <> v`) and `not.eq` (`NOT (col = v)`) coincide: both are
unknown, i.e. row not returned, when the column is NULL. -/
def sqlNotEqText (col : Option Str) (v : Str) : Bool :=
  match col with
  | some s => s ≠ v
  | none => false

def sqlIsNullInt (col : Option Int) : Bool := col = none

def sqlEqInt (col : Option Int) (v : Int) : Bool :=
  match col with
  | some n => n = v
  | none => false

def sqlGtInt (col : Option Int) (v : Int) : Bool :=
  match col with
  | some n => v < n
  | none => false

/-- `eq` of an integer column against a JS-number filter value. -/
def sqlEqIntNum (col : Option Int) (v : JsNum) : Bool :=
  match v, col with
  | .fin x, some n => scaledEq x ⟨n, 0⟩
  | _, _ => false

def sqlIlike (col : Option Str) (needle : Str) : Bool :=
  match col with
  | some s => ciContains s needle
  | none => false

/-- `gte`/`lt` on `created_at` against an ISO timestamp literal,
modelled on canonical same-format timestamp strings. -/
def sqlGteStr (col : Str) (v : Str) : Bool := !strLtB col v
def sqlLtStr (col : Str) (v : Str) : Bool := strLtB col v

/-! ## Filter Compiler (`applyDirectColumnFilters`, status and requester
predicates) -/

def condCountryCode (v : Str) (row : VatRow) : Bool :=
  let val := trim v
  if val = [] then true
  else
    let normalizedCountry := upStr val
    if isIsoCountryCodeLike normalizedCountry then
      row.country_code = normalizedCountry
    else true

/-- Default branch of the column switch: `ilike key '%valStr%'`; among
the `COL_KEYS` only `vat_number` reaches it. -/
def condVatNumber (v : Str) (row : VatRow) : Bool :=
  let val := trim v
  if val = [] then true else ciContains row.vat_number val

def condCreatedAt (v : Str) (row : VatRow) : Bool :=
  let val := trim v
  if val = [] then true
  else if isIsoDate val then
    sqlGteStr row.created_at (val ++ "T00:00:00.000Z".data) &&
    sqlLtStr row.created_at (getNextIsoDate val ++ "T00:00:00.000Z".data)
  else true

def condLastCheckDate (v : Str) (row : VatRow) : Bool :=
  let val := trim v
  if val = [] then true
  else if isIsoDate val then sqlEqText row.last_check_date val
  else true

def condNumberOfChecks (v : Str) (row : VatRow) : Bool :=
  let val := trim v
  if val = [] then true
  else
    match jsNumber val with
    | none => true
    | some jn => sqlEqIntNum row.number_of_checks jn

def condPeriodicity (v : Str) (row : VatRow) : Bool :=
  let val := trim v
  if val = [] then true
  else
    let normalized := lowStr val
    if normalized = "daily".data || normalized = "weekly".data ||
       normalized = "monthly".data || normalized = "inactive".data then
      sqlEqText row.periodicity normalized
    else true

/-- `applyDirectColumnFilters`: conjunction of the per-column predicates;
an empty value is skipped and `entity_name` is never applied directly (it
is routed to the search resolver). -/
def applyDirectColumnFilters (f : ColumnFilters) (row : VatRow) : Bool :=
  condCountryCode f.country_code row &&
  condVatNumber f.vat_number row &&
  condCreatedAt f.created_at row &&
  condLastCheckDate f.last_check_date row &&
  condNumberOfChecks f.number_of_checks row &&
  condPeriodicity f.periodicity row

/-- The status-selector predicate compiled by `fetchRawData`
(lines 716-732). -/
def statusCond (sf : StatusFilter) (row : VatRow) : Bool :=
  match sf with
  | .all => true
  | .deleted => sqlEqText row.reference.status "deleted".data
  | .inactive =>
      sqlEqText row.periodicity "inactive".data &&
      sqlNotEqText row.reference.status "deleted".data
  | .pending =>
      sqlNotEqText row.periodicity "inactive".data &&
      sqlNotEqText row.reference.status "deleted".data &&
      (sqlIsNullInt row.number_of_checks || sqlEqInt row.number_of_checks 0)
  | .active =>
      sqlNotEqText row.periodicity "inactive".data &&
      sqlNotEqText row.reference.status "deleted".data &&
      sqlGtInt row.number_of_checks 0

/-- The requester constraint added when the selector value matches the
VAT pattern. -/
def requesterCond (ccPart restPart : Str) (row : VatRow) : Bool :=
  sqlEqText row.country_code_requester ccPart &&
  sqlEqText row.vat_number_requester restPart

/-! ## Search Resolver Client -/

/-- `Array.from(new Set(...))`: deduplicate keeping first occurrences
(`seen` accumulates the values already emitted). -/
def dedupFirstAux (seen : List Str) : List Str → List Str
  | [] => []
  | a :: l =>
      if a ∈ seen then dedupFirstAux seen l
      else a :: dedupFirstAux (a :: seen) l

def dedupFirst (l : List Str) : List Str := dedupFirstAux [] l

/-- `toUniqueUuids`: trim each value (null becomes empty), drop empties,
deduplicate preserving first occurrences. -/
def toUniqueUuids (values : List (Option Str)) : List Str :=
  dedupFirst
    ((values.map (fun v => match v with | some s => trim s | none => [])).filter
      (fun s => s ≠ []))

/-- `intersectUuids`: keep the left-hand values present on the right. -/
def intersectUuids (left right : List Str) : List Str :=
  left.filter (fun v => decide (v ∈ right))

inductive SearchMode where
  | search | entity
deriving DecidableEq, Repr

/-- The `.or(...)` disjunction of `fetchMatchingVatUuidsFromVatNumbers`:
in `search` mode VAT-number substrings (raw and whitespace-compacted),
the country code when the term looks like one, and every denormalized
reference field; in `entity` mode the three name fields only. -/
def vatNumbersSearchPred (term : Str) (mode : SearchMode) (row : VatRow) : Bool :=
  let compactVatTerm := term.filter (fun c => !isWsChar c)
  let normalizedCountryTerm := upStr term
  match mode with
  | .search =>
      ciContains row.vat_number term ||
      ciContains row.vat_number compactVatTerm ||
      (isIsoCountryCodeLike normalizedCountryTerm &&
        row.country_code = normalizedCountryTerm) ||
      sqlIlike row.reference.name term ||
      sqlIlike row.reference.nom_complet term ||
      sqlIlike row.reference.counterpart_name term ||
      sqlIlike row.reference.address term ||
      sqlIlike row.reference.counterpart_address term ||
      sqlIlike row.reference.counterpart_address_line term ||
      sqlIlike row.reference.counterpart_address_city term ||
      sqlIlike row.reference.counterpart_address_postal_code term ||
      sqlIlike row.reference.counterpart_address_country term
  | .entity =>
      sqlIlike row.reference.name term ||
      sqlIlike row.reference.nom_complet term ||
      sqlIlike row.reference.counterpart_name term

/-- The `.or(...)` disjunction of `fetchMatchingVatUuidsFromChecks`. -/
def checksSearchPred (term : Str) (row : CheckRow) : Bool :=
  let compactVatTerm := term.filter (fun c => !isWsChar c)
  let normalizedCountryTerm := upStr term
  sqlIlike row.name term ||
  sqlIlike row.address term ||
  sqlIlike row.vat_number_check term ||
  sqlIlike row.vat_number_check compactVatTerm ||
  (isIsoCountryCodeLike normalizedCountryTerm &&
    sqlEqText row.country_code_check normalizedCountryTerm)

/-- `fetchMatchingVatUuidsFromVatNumbers`: matching rows capped at 2000
(the store returns them in its own order, modelled as list order), then
unique non-empty trimmed uuids. -/
def fetchMatchingVatUuidsFromVatNumbers (term : Str) (mode : SearchMode)
    (db : Db) : List Str :=
  if term = [] then []
  else
    toUniqueUuids
      (((db.vatNumbers.filter (vatNumbersSearchPred term mode)).take 2000).map
        (fun r => some r.uuid))

/-- `fetchMatchingVatUuidsFromChecks`: matching rows with a non-null
owning uuid, capped at 2000, mapped back to unique owning uuids. -/
def fetchMatchingVatUuidsFromChecks (term : Str) (db : Db) : List Str :=
  if term = [] then []
  else
    toUniqueUuids
      (((db.checks.filter
          (fun r => checksSearchPred term r && r.vat_number_uuid ≠ none)).take
            2000).map
        (fun r => r.vat_number_uuid))

def resolveVatUuidsForSearchTerm (term : Str) (db : Db) : List Str :=
  toUniqueUuids
    ((fetchMatchingVatUuidsFromVatNumbers term .search db ++
      fetchMatchingVatUuidsFromChecks term db).map some)

def resolveVatUuidsForEntityFilter (term : Str) (db : Db) : List Str :=
  toUniqueUuids
    ((fetchMatchingVatUuidsFromVatNumbers term .entity db ++
      fetchMatchingVatUuidsFromChecks term db).map some)

/-- The identifier constraint computed by `fetchRawData` (lines 734-749):
`none` when neither a search term nor an entity filter is active,
otherwise the resolved allow-list (the intersection when both are). -/
def resolvedConstraint (st : QueryState) (db : Db) : Option (List Str) :=
  let searchTerm := sanitizeSearchTerm st.search
  let c1 : Option (List Str) :=
    if searchTerm ≠ [] then some (resolveVatUuidsForSearchTerm searchTerm db)
    else none
  let entityFilterValue := trim st.filters.entity_name
  if entityFilterValue ≠ [] then
    let entityUuids :=
      resolveVatUuidsForEntityFilter (sanitizeSearchTerm entityFilterValue) db
    some
      (match c1 with
        | none => entityUuids
        | some u => intersectUuids u entityUuids)
  else c1

/-! ## Ordering, enrichment, and the page fetch -/

/-- Stable insertion for descending `created_at` order. -/
def insertByCreatedDesc (r : VatRow) : List VatRow → List VatRow
  | [] => [r]
  | x :: xs =>
      if !strLtB r.created_at x.created_at then r :: x :: xs
      else x :: insertByCreatedDesc r xs

/-- `.order('created_at', { ascending: false })`. -/
def sortByCreatedDesc : List VatRow → List VatRow
  | [] => []
  | x :: xs => insertByCreatedDesc x (sortByCreatedDesc xs)

/-- Descending `vat_check_date` with PostgreSQL's default NULLS FIRST:
`none` sorts above every date. -/
def checkDateGe (x y : Option Str) : Bool :=
  match x, y with
  | none, _ => true
  | some _, none => false
  | some a, some b => !strLtB a b

def insertByCheckDateDesc (r : CheckRow) : List CheckRow → List CheckRow
  | [] => [r]
  | x :: xs =>
      if checkDateGe r.vat_check_date x.vat_check_date then r :: x :: xs
      else x :: insertByCheckDateDesc r xs

def sortChecksByDateDesc : List CheckRow → List CheckRow
  | [] => []
  | x :: xs => insertByCheckDateDesc x (sortChecksByDateDesc xs)

/-- One pass of the latest-check accumulation: first row per uuid wins,
first non-empty trimmed name per uuid wins (the trailing `continue` in
the source loop is a no-op). -/
def addLatest (acc : List (Str × CheckRow) × List (Str × Str)) (row : CheckRow) :
    List (Str × CheckRow) × List (Str × Str) :=
  match row.vat_number_uuid with
  | none => acc
  | some u =>
      let m1 :=
        if (acc.1.lookup u).isNone then acc.1 ++ [(u, row)] else acc.1
      let checkName := trim (row.name.getD [])
      let m2 :=
        if checkName ≠ [] && (acc.2.lookup u).isNone then
          acc.2 ++ [(u, checkName)]
        else acc.2
      (m1, m2)

/-- `enrichWithLastCheckResult` (success path of the checks query; on a
query error the source returns the items unchanged). -/
def enrichWithLastCheckResult (items : List VatRow) (db : Db) : List VatRow :=
  if items = [] then items
  else
    let uuids := (items.map (fun i => i.uuid)).filter (fun u => u ≠ [])
    if uuids = [] then items
    else
      let relevant :=
        db.checks.filter
          (fun c =>
            match c.vat_number_uuid with
            | some u => decide (u ∈ uuids)
            | none => false)
      let sorted := sortChecksByDateDesc relevant
      let maps := sorted.foldl addLatest ([], [])
      items.map
        (fun item =>
          let latest := maps.1.lookup item.uuid
          { item with
            last_check_valid :=
              match latest with
              | some c => match c.valid with | some b => some b | none => none
              | none => none
            last_check_checked_at :=
              match latest with
              | some c => c.vat_check_date
              | none => none
            last_check_name := maps.2.lookup item.uuid })

structure FetchResult where
  rows : List VatRow
  count : Nat
  storeQueried : Bool
deriving DecidableEq, Repr

/-- `.in('uuid', constrainedUuids)` when an allow-list is active. -/
def uuidCond (c : Option (List Str)) (row : VatRow) : Bool :=
  match c with
  | none => true
  | some us => decide (row.uuid ∈ us)

/-- The full compiled row predicate of the paginated
`vat_checker_numbers` query: direct column filters, requester
constraint, status constraint, identifier allow-list. -/
def mainRowPred (st : QueryState) (reqCond : VatRow → Bool)
    (c : Option (List Str)) (row : VatRow) : Bool :=
  applyDirectColumnFilters st.filters row && reqCond row &&
  statusCond st.statusFilter row && uuidCond c row

/-- The tail of `fetchRawData` after the requester check: resolve the
identifier constraint, short-circuit when it is empty, otherwise run the
counted, ordered, paginated store query and enrich the page.
`storeQueried` records whether the paginated Record Store round-trip was
issued. -/
def runStoreQuery (st : QueryState) (db : Db) (pageNum : Nat)
    (reqCond : VatRow → Bool) : FetchResult :=
  let c := resolvedConstraint st db
  if c = some [] then ⟨[], 0, false⟩
  else
    let matched := db.vatNumbers.filter (mainRowPred st reqCond c)
    let fromIdx := (pageNum - 1) * st.pageSize
    let pageRows := ((sortByCreatedDesc matched).drop fromIdx).take st.pageSize
    ⟨enrichWithLastCheckResult pageRows db, matched.length, true⟩

/-- `fetchRawData` (lines 694-766). -/
def fetchRawData (st : QueryState) (db : Db) (pageNum : Nat) : FetchResult :=
  if st.requesterFilter = allSentinel then
    runStoreQuery st db pageNum (fun _ => true)
  else
    match vatPatternSplit (normalizeVatInput st.requesterFilter) with
    | none => ⟨[], 0, false⟩
    | some (ccPart, restPart) =>
        runStoreQuery st db pageNum (requesterCond ccPart restPart)

/-! ## Page Cache neighbor prefetch (`prefetchNeighbors`) -/

/-- The pages `prefetchNeighbors` attempts to fetch, in loop order
(`P-1, P+1, P-2, P+2` with the source's bound checks `P-i > 0` and
`P+i ≤ maxPage`), skipping pages already present in the cache.  The
neighbor pages are pairwise distinct and each fetch only caches its own
page, so the iteration-time cache test equals the call-time one. -/
def prefetchTargets (cachedPages : List Nat) (currentPage maxPage : Nat) :
    List Nat :=
  let neighbors :=
    (if currentPage - 1 > 0 then [currentPage - 1] else []) ++
    (if currentPage + 1 ≤ maxPage then [currentPage + 1] else []) ++
    (if currentPage - 2 > 0 then [currentPage - 2] else []) ++
    (if currentPage + 2 ≤ maxPage then [currentPage + 2] else [])
  neighbors.filter (fun p => !(decide (p ∈ cachedPages)))

/-- The fetches the prefetcher performs: each attempted neighbor page is
fetched with `fetchRawData` under the same query state as page `P`. -/
def prefetchRuns (st : QueryState) (db : Db) (cachedPages : List Nat)
    (currentPage maxPage : Nat) : List (Nat × FetchResult) :=
  (prefetchTargets cachedPages currentPage maxPage).map
    (fun p => (p, fetchRawData st db p))

/-! ## Mutation Coordinator (optimistic periodicity update, soft delete)

The component state the two mutations touch; async flags
(`updatingPeriodicity`, `deletingVatNumber`) are set and reset within
the operation and net to no change, toasts are modelled as a shown
flag. -/

structure UiState where
  data : List VatRow := []
  dataCache : List (Nat × List VatRow) := []
  selectedNumber : Option VatRow := none
  periodicityDraft : Periodicity := .daily
  error : Option Str := none
  periodicityToastShown : Bool := false
  page : Nat := 1
  pageSize : Nat := 15
  totalCount : Nat := 0
  totalPages : Nat := 1
  checksHistory : List CheckRow := []
  checksTotal : Nat := 0
  checksTotalPages : Nat := 1
  checksPage : Nat := 1
deriving DecidableEq, Repr

def updateItems (uuid : Str) (p : Periodicity) (items : List VatRow) :
    List VatRow :=
  items.map
    (fun item =>
      if item.uuid = uuid then { item with periodicity := some (periodicityStr p) }
      else item)

/-- `applyPeriodicityLocally`: write the new periodicity into the
current page array, the open detail record, and every cached page. -/
def applyPeriodicityLocally (uuid : Str) (p : Periodicity) (st : UiState) :
    UiState :=
  { st with
    data := updateItems uuid p st.data
    selectedNumber :=
      match st.selectedNumber with
      | some prev =>
          if prev.uuid = uuid then
            some { prev with periodicity := some (periodicityStr p) }
          else some prev
      | none => none
    dataCache := st.dataCache.map (fun e => (e.1, updateItems uuid p e.2)) }

/-- Outcome of the PATCH request: failure message, or success with the
optional confirmed periodicity from `payload?.vat_number?.periodicity`. -/
inductive PatchOutcome where
  | failure (msg : Str)
  | success (payloadPeriodicity : Option Str)
deriving DecidableEq, Repr

/-- `savePeriodicity` (lines 935-982) as a state transformation given
the backend outcome. -/
def savePeriodicity (st : UiState) (outcome : PatchOutcome) : UiState :=
  match st.selectedNumber with
  | none => st
  | some sel =>
      let currentPeriodicity := normalizePeriodicity sel.periodicity
      let nextPeriodicity := st.periodicityDraft
      if currentPeriodicity = nextPeriodicity then st
      else
        let st1 :=
          applyPeriodicityLocally sel.uuid nextPeriodicity { st with error := none }
        match outcome with
        | .failure msg =>
            { applyPeriodicityLocally sel.uuid currentPeriodicity st1 with
              periodicityDraft := currentPeriodicity
              error := some msg }
        | .success payloadPeriodicity =>
            let confirmed :=
              normalizePeriodicity
                (some (payloadPeriodicity.getD (periodicityStr nextPeriodicity)))
            if confirmed ≠ nextPeriodicity then
              { applyPeriodicityLocally sel.uuid confirmed st1 with
                periodicityDraft := confirmed
                periodicityToastShown := true }
            else { st1 with periodicityToastShown := true }

/-- `removeMonitoredNumberLocally` (lines 891-916).  `Math.max(0, n-1)`
is truncated `Nat` subtraction; `Math.ceil(n / pageSize)` is
`(n + pageSize - 1) / pageSize` (for a positive page size, the only
values the component uses). -/
def removeMonitoredNumberLocally (uuid : Str) (st : UiState) : UiState :=
  let removeFromItems := fun (items : List VatRow) =>
    items.filter (fun item => item.uuid ≠ uuid)
  let nextTotalCount := st.totalCount - 1
  let nextTotalPages := max 1 ((nextTotalCount + st.pageSize - 1) / st.pageSize)
  { st with
    data := removeFromItems st.data
    selectedNumber :=
      match st.selectedNumber with
      | some prev => if prev.uuid = uuid then none else some prev
      | none => none
    dataCache := st.dataCache.map (fun e => (e.1, removeFromItems e.2))
    checksHistory := []
    checksTotal := 0
    checksTotalPages := 1
    checksPage := 1
    totalCount := nextTotalCount
    totalPages := nextTotalPages
    page := if st.page > nextTotalPages then nextTotalPages else st.page }

inductive DeleteOutcome where
  | success
  | failure (msg : Str)
deriving DecidableEq, Repr

/-- `softDeleteVatNumber` (lines 984-1025) after the user confirmed: the
store update atomically sets the reference status flag to `deleted` (with
a timestamp) and periodicity to `inactive`; locally, success removes the
entry everywhere and failure only surfaces the error. -/
def softDeleteVatNumber (st : UiState) (outcome : DeleteOutcome) : UiState :=
  match st.selectedNumber with
  | none => st
  | some target =>
      match outcome with
      | .success => removeMonitoredNumberLocally target.uuid { st with error := none }
      | .failure msg => { st with error := some msg }

/-! ## Asynchronous completion machine (cache staleness)

Events of the query controller relevant to stale-response handling: the
debounced filter-change effect (lines 272-283: page to 1, cache cleared,
a forced fetch of page 1 started), the start of a neighbor prefetch, and
the completion of an in-flight request.  `fetchRawData` is deterministic
in the query state and page for a fixed store, so a completed request's
rows are modelled by the `(queryState, page)` pair it was issued under;
completions write through `updateCache` (lines 423-426) which has no
staleness guard. -/

inductive ReqKind where
  | primary | prefetch
deriving DecidableEq, Repr

structure Req where
  qs : QueryState
  reqPage : Nat
  kind : ReqKind
deriving DecidableEq, Repr

abbrev PageRows := QueryState × Nat

structure Machine where
  qs : QueryState
  page : Nat
  cache : List (Nat × PageRows)
  displayed : Option PageRows
  inflight : List Req
deriving DecidableEq, Repr

inductive UiEvent where
  | changeFilters (qs : QueryState)
  | startPrefetch (p : Nat)
  | complete (i : Nat)
deriving DecidableEq, Repr

def cacheSet (c : List (Nat × PageRows)) (p : Nat) (v : PageRows) :
    List (Nat × PageRows) :=
  (p, v) :: c.filter (fun e => e.1 ≠ p)

def step (s : Machine) : UiEvent → Machine
  | .changeFilters qs =>
      { qs := qs
        page := 1
        cache := []
        displayed := s.displayed
        inflight := s.inflight ++ [⟨qs, 1, .primary⟩] }
  | .startPrefetch p =>
      if (s.cache.lookup p).isNone then
        { s with inflight := s.inflight ++ [⟨s.qs, p, .prefetch⟩] }
      else s
  | .complete i =>
      match s.inflight[i]? with
      | none => s
      | some req =>
          { s with
            inflight := s.inflight.eraseIdx i
            cache := cacheSet s.cache req.reqPage (req.qs, req.reqPage)
            displayed :=
              if req.kind = .primary then some (req.qs, req.reqPage)
              else s.displayed }

def run (s : Machine) (evs : List UiEvent) : Machine :=
  evs.foldl step s

/-- Modelled from the spec: the status mapping as the claim reads it,
where a row whose reference blob has no status flag at all satisfies
"reference status flag is not deleted".  Only the not-deleted conjunct
differs from the compiled `statusCond`. -/
def statusCondSpec (sf : StatusFilter) (row : VatRow) : Bool :=
  match sf with
  | .all => true
  | .deleted => sqlEqText row.reference.status "deleted".data
  | .inactive =>
      sqlEqText row.periodicity "inactive".data &&
      !(sqlEqText row.reference.status "deleted".data)
  | .pending =>
      sqlNotEqText row.periodicity "inactive".data &&
      !(sqlEqText row.reference.status "deleted".data) &&
      (sqlIsNullInt row.number_of_checks || sqlEqInt row.number_of_checks 0)
  | .active =>
      sqlNotEqText row.periodicity "inactive".data &&
      !(sqlEqText row.reference.status "deleted".data) &&
      sqlGtInt row.number_of_checks 0

/-! # Lemmas -/

theorem sqlEqText_eq_true {col : Option Str} {v : Str} :
    sqlEqText col v = true ↔ col = some v := by
  cases col <;> simp [sqlEqText]

/-- Soundness of the executable scaled-decimal equality: it decides
equality of the represented rational values. -/
theorem scaledEq_iff_toRat (x y : ScaledDec) :
    scaledEq x y = true ↔ x.toRat = y.toRat := by
  obtain ⟨m1, e1⟩ := x
  obtain ⟨m2, e2⟩ := y
  simp only [scaledEq, ScaledDec.toRat]
  have hne : (10 : ℚ) ≠ 0 := by norm_num
  split
  · rename_i h
    rw [decide_eq_true_eq]
    have hd : ((e1 - e2).toNat : ℤ) = e1 - e2 := Int.toNat_of_nonneg (by omega)
    have h10 : (10 : ℚ) ^ e1 = 10 ^ ((e1 - e2).toNat : ℕ) * 10 ^ e2 := by
      rw [← zpow_natCast (10 : ℚ) (e1 - e2).toNat, hd, ← zpow_add₀ hne]
      congr 1
      omega
    constructor
    · intro hm
      have hq2 : (m1 : ℚ) * 10 ^ ((e1 - e2).toNat : ℕ) = (m2 : ℚ) := by
        exact_mod_cast hm
      rw [h10, ← mul_assoc, hq2]
    · intro hq
      rw [h10, ← mul_assoc] at hq
      have h3 : (m1 : ℚ) * 10 ^ ((e1 - e2).toNat : ℕ) = (m2 : ℚ) :=
        mul_right_cancel₀ (zpow_ne_zero _ hne) hq
      exact_mod_cast h3
  · rename_i h
    rw [decide_eq_true_eq]
    have hd : ((e2 - e1).toNat : ℤ) = e2 - e1 := Int.toNat_of_nonneg (by omega)
    have h10 : (10 : ℚ) ^ e2 = 10 ^ ((e2 - e1).toNat : ℕ) * 10 ^ e1 := by
      rw [← zpow_natCast (10 : ℚ) (e2 - e1).toNat, hd, ← zpow_add₀ hne]
      congr 1
      omega
    constructor
    · intro hm
      have hq2 : (m2 : ℚ) * 10 ^ ((e2 - e1).toNat : ℕ) = (m1 : ℚ) := by
        exact_mod_cast hm.symm
      rw [h10, ← mul_assoc, hq2]
    · intro hq
      rw [h10, ← mul_assoc] at hq
      have h3 : (m1 : ℚ) = (m2 : ℚ) * 10 ^ ((e2 - e1).toNat : ℕ) :=
        mul_right_cancel₀ (zpow_ne_zero _ hne) hq
      exact_mod_cast h3

theorem scaledInt_toRat (n : ℤ) : (⟨n, 0⟩ : ScaledDec).toRat = (n : ℚ) := by
  simp [ScaledDec.toRat]

theorem dedupFirstAux_length_le (seen : List Str) (l : List Str) :
    (dedupFirstAux seen l).length ≤ l.length := by
  induction l generalizing seen with
  | nil => simp [dedupFirstAux]
  | cons a l ih =>
      simp only [dedupFirstAux, List.length_cons]
      split
      · exact le_trans (ih seen) (Nat.le_succ _)
      · simpa using Nat.succ_le_succ (ih (a :: seen))

theorem mem_dedupFirstAux {u : Str} (seen : List Str) (l : List Str)
    (h : u ∈ dedupFirstAux seen l) : u ∈ l := by
  induction l generalizing seen with
  | nil => simp [dedupFirstAux] at h
  | cons a l ih =>
      simp only [dedupFirstAux] at h
      split at h
      · exact List.mem_cons_of_mem a (ih seen h)
      · rcases List.mem_cons.mp h with h1 | h2
        · exact h1 ▸ List.mem_cons_self _ _
        · exact List.mem_cons_of_mem a (ih _ h2)

theorem toUniqueUuids_length_le (values : List (Option Str)) :
    (toUniqueUuids values).length ≤ values.length := by
  unfold toUniqueUuids dedupFirst
  refine le_trans (dedupFirstAux_length_le _ _) (le_trans (List.length_filter_le _ _) ?_)
  rw [List.length_map]

theorem mem_toUniqueUuids {u : Str} (values : List (Option Str))
    (h : u ∈ toUniqueUuids values) : ∃ s, some s ∈ values ∧ u = trim s := by
  unfold toUniqueUuids dedupFirst at h
  have h1 := mem_dedupFirstAux _ _ h
  have h2 := List.mem_filter.mp h1
  obtain ⟨v, hv, hvu⟩ := List.mem_map.mp h2.1
  have hne := h2.2
  cases v with
  | none =>
      rw [← hvu] at hne
      simp at hne
  | some s => exact ⟨s, hv, hvu.symm⟩

theorem trim_of_no_ws (l : Str) (h : ∀ c ∈ l, isWsChar c = false) : trim l = l := by
  have hd : ∀ (m : Str), (∀ c ∈ m, isWsChar c = false) →
      m.dropWhile isWsChar = m := by
    intro m hm
    cases m with
    | nil => rfl
    | cons c cs =>
        rw [List.dropWhile_cons, hm c (List.mem_cons_self c cs)]
        simp
  unfold trim
  rw [hd l h, hd l.reverse (fun c hc => h c (List.mem_reverse.mp hc)),
    List.reverse_reverse]

theorem normalizePeriodicity_periodicityStr (p : Periodicity) :
    normalizePeriodicity (some (periodicityStr p)) = p := by
  cases p <;> rfl

theorem updateItems_rollback (u : Str) (pnext pcur : Periodicity)
    (items : List VatRow)
    (h : ∀ it ∈ items, it.uuid = u → it.periodicity = some (periodicityStr pcur)) :
    updateItems u pcur (updateItems u pnext items) = items := by
  induction items with
  | nil => rfl
  | cons it rest ih =>
      have h1 := h it (List.mem_cons_self it rest)
      have h2 : updateItems u pcur (updateItems u pnext rest) = rest :=
        ih (fun x hx => h x (List.mem_cons_of_mem it hx))
      by_cases hu : it.uuid = u
      · have hp := h1 hu
        cases it
        simp_all [updateItems]
      · cases it
        simp_all [updateItems]

theorem cacheMap_rollback (u : Str) (pnext pcur : Periodicity)
    (cache : List (Nat × List VatRow))
    (h : ∀ e ∈ cache, ∀ it ∈ e.2, it.uuid = u →
      it.periodicity = some (periodicityStr pcur)) :
    (cache.map (fun e => (e.1, updateItems u pnext e.2))).map
      (fun e => (e.1, updateItems u pcur e.2)) = cache := by
  induction cache with
  | nil => rfl
  | cons e rest ih =>
      simp only [List.map_cons, List.cons.injEq]
      refine ⟨?_, ih (fun x hx => h x (List.mem_cons_of_mem e hx))⟩
      have he := updateItems_rollback u pnext pcur e.2 (h e (List.mem_cons_self e rest))
      cases e
      simp_all

/-! # Claims -/

/-- C1: for every query whose free-text search term and/or entity-name
filter is non-empty after sanitization, if the resolved identifier
constraint is empty then the page fetch returns an empty row list with
total count 0 and no Record Store paginated query is issued. -/
theorem c1_search_short_circuit (st : QueryState) (db : Db) (pageNum : Nat)
    (_hterm : sanitizeSearchTerm st.search ≠ [] ∨
      sanitizeSearchTerm (trim st.filters.entity_name) ≠ [])
    (hres : resolvedConstraint st db = some []) :
    fetchRawData st db pageNum = ⟨[], 0, false⟩ := by
  have hrun : ∀ rc, runStoreQuery st db pageNum rc = ⟨[], 0, false⟩ := by
    intro rc
    unfold runStoreQuery
    rw [hres]
    simp
  unfold fetchRawData
  split
  · exact hrun _
  · split
    · rfl
    · exact hrun _

theorem c1_search_short_circuit_witness :
    sanitizeSearchTerm "ZZZ".data ≠ [] ∧
    resolvedConstraint { search := "ZZZ".data } ⟨[], []⟩ = some [] ∧
    fetchRawData { search := "ZZZ".data } ⟨[], []⟩ 1 = ⟨[], 0, false⟩ :=
  ⟨by decide, by decide,
    c1_search_short_circuit _ _ 1 (Or.inl (by decide)) (by decide)⟩

/-- C2: for every requester selector value other than the `__all__`
sentinel, if the normalized value does not match
`^([A-Z]{2})([A-Z0-9]{2,14})$` the page fetch returns an empty row list
with total count 0 (and issues no store query) regardless of all other
filters; if it does match, the compiled query constrains
`country_code_requester` to the 2-letter part and `vat_number_requester`
to the remainder. -/
theorem c2_requester_fail_closed (st : QueryState) (db : Db) (pageNum : Nat)
    (hreq : st.requesterFilter ≠ allSentinel) :
    (vatPatternSplit (normalizeVatInput st.requesterFilter) = none →
      fetchRawData st db pageNum = ⟨[], 0, false⟩) ∧
    (∀ ccPart restPart,
      vatPatternSplit (normalizeVatInput st.requesterFilter) =
          some (ccPart, restPart) →
      fetchRawData st db pageNum =
        runStoreQuery st db pageNum (requesterCond ccPart restPart) ∧
      ∀ c row, mainRowPred st (requesterCond ccPart restPart) c row = true →
        row.country_code_requester = some ccPart ∧
        row.vat_number_requester = some restPart) := by
  refine ⟨fun hnone => ?_, fun ccPart restPart hsome => ⟨?_, ?_⟩⟩
  · unfold fetchRawData
    rw [if_neg hreq, hnone]
  · unfold fetchRawData
    rw [if_neg hreq, hsome]
  · intro c row hpred
    simp only [mainRowPred, requesterCond, Bool.and_eq_true,
      sqlEqText_eq_true] at hpred
    exact hpred.1.1.2

/-- A concrete row carrying the requester pair `FR` / `1234`. -/
def frRow : VatRow where
  uuid := "u".data
  country_code_requester := some "FR".data
  vat_number_requester := some "1234".data

theorem c2_requester_fail_closed_witness :
    fetchRawData { requesterFilter := "X!".data } ⟨[], []⟩ 1 = ⟨[], 0, false⟩ ∧
    frRow.country_code_requester = some "FR".data ∧
    frRow.vat_number_requester = some "1234".data :=
  ⟨(c2_requester_fail_closed { requesterFilter := "X!".data } ⟨[], []⟩ 1
      (by decide)).1 (by decide),
    ((c2_requester_fail_closed { requesterFilter := "fr 1234".data } ⟨[], []⟩ 1
        (by decide)).2 "FR".data "1234".data (by decide)).2 none frRow
      (by decide)⟩

/-- A never-soft-deleted entry: daily periodicity, three checks, and a
reference blob with no status flag at all. -/
def noStatusFlagRow : VatRow where
  uuid := "u1".data
  periodicity := some "daily".data
  number_of_checks := some 3

/-- C3: the compiled status predicate diverges from the claimed mapping
on rows whose reference blob has no status flag.  The claim says such a
row satisfies the "not deleted" condition of the inactive/pending/active
buckets; the compiled `not.eq.deleted` is SQL-unknown on a NULL
`reference->>status` and excludes the row.  On rows that do carry a
(non-`deleted`) status flag, and for the `deleted` and `all` selectors,
the two mappings agree, as the last conjuncts illustrate. -/
theorem c3_status_mapping_null_flag :
    statusCond .active noStatusFlagRow = false ∧
    statusCondSpec .active noStatusFlagRow = true ∧
    statusCond .pending { noStatusFlagRow with number_of_checks := some 0 } = false ∧
    statusCondSpec .pending { noStatusFlagRow with number_of_checks := some 0 } = true ∧
    statusCond .inactive { noStatusFlagRow with periodicity := some "inactive".data } = false ∧
    statusCondSpec .inactive { noStatusFlagRow with periodicity := some "inactive".data } = true ∧
    statusCond .active { noStatusFlagRow with reference := { status := some "ok".data } } =
      statusCondSpec .active { noStatusFlagRow with reference := { status := some "ok".data } } ∧
    statusCond .deleted { noStatusFlagRow with reference := { status := some "deleted".data } } =
      statusCondSpec .deleted { noStatusFlagRow with reference := { status := some "deleted".data } } := by
  decide

/-- Two distinct query states for the staleness scenarios. -/
def qsA : QueryState := {}

def qsB : QueryState := { statusFilter := .active }

/-- A machine with one primary fetch in flight under `qsA`. -/
def c4start : Machine where
  qs := qsA
  page := 1
  cache := []
  displayed := none
  inflight := [⟨qsA, 1, .primary⟩]

/-- C4 counterexample: a primary fetch issued under `qsA` completes
after the filters changed to `qsB`; its rows are written into the (just
cleared) cache and displayed, not discarded, because `updateCache` and
the `loadPageData` continuation carry no staleness guard. -/
theorem c4_stale_completion_counterexample :
    (run c4start [.changeFilters qsB, .complete 0]).qs = qsB ∧
    qsA ≠ qsB ∧
    (run c4start [.changeFilters qsB, .complete 0]).cache.lookup 1 =
      some (qsA, 1) ∧
    (run c4start [.changeFilters qsB, .complete 0]).displayed = some (qsA, 1) := by
  decide

/-- C4 amended: an asynchronous completion is never discarded — it
writes its rows into the current cache at its page (and, for a primary
fetch, into the displayed page) even when its originating query state is
no longer current; stale rows are removed only at change time, when the
filter-change transition clears the whole cache. -/
theorem c4_completions_always_written (s : Machine) (i : Nat) (req : Req)
    (h : s.inflight[i]? = some req) :
    (step s (.complete i)).cache.lookup req.reqPage = some (req.qs, req.reqPage) ∧
    (req.kind = .primary →
      (step s (.complete i)).displayed = some (req.qs, req.reqPage)) ∧
    (∀ qs2, (step s (.changeFilters qs2)).cache = []) := by
  refine ⟨?_, fun hk => ?_, fun qs2 => rfl⟩
  · simp [step, h, cacheSet, List.lookup]
  · simp [step, h, hk]

theorem c4_completions_always_written_witness :
    (step c4start (.complete 0)).cache.lookup 1 = some (qsA, 1) :=
  (c4_completions_always_written c4start 0 ⟨qsA, 1, .primary⟩ (by decide)).1

/-- A machine with one neighbor prefetch in flight under `qsA`. -/
def c5start : Machine where
  qs := qsA
  page := 3
  cache := []
  displayed := none
  inflight := [⟨qsA, 2, .prefetch⟩]

/-- C5 counterexample: after a filter change the page is 1 and the cache
was cleared, but an old prefetch completion repopulates the cache before
the new page-1 fetch (still in flight) completes — the cache is not
empty throughout the window the claim describes. -/
theorem c5_reset_window_counterexample :
    (run c5start [.changeFilters qsB, .complete 0]).page = 1 ∧
    (run c5start [.changeFilters qsB, .complete 0]).cache = [(2, (qsA, 2))] ∧
    (run c5start [.changeFilters qsB, .complete 0]).inflight =
      [⟨qsB, 1, .primary⟩] := by
  decide

/-- C5 amended: after any event history, the moment a
search/filter/requester/status change takes effect (the debounced effect
fires) the page number is 1 and the Page Cache is completely empty; the
window until the new fetch completes is not protected, as completions of
requests issued earlier may repopulate the cache. -/
theorem c5_reset_on_change (s : Machine) (evs : List UiEvent) (qs2 : QueryState) :
    (run s (evs ++ [.changeFilters qs2])).page = 1 ∧
    (run s (evs ++ [.changeFilters qs2])).cache = [] ∧
    (run s (evs ++ [.changeFilters qs2])).qs = qs2 := by
  simp [run, List.foldl_append, step]

/-- C6: when the backend rejects a periodicity update whose new value
differed from the (valid, consistently stored) current value, the whole
component state is restored — the entry's periodicity in the current
page, in every cached page and in the open detail record goes back to
the pre-update value — except that the draft is reset to the pre-update
value and the error is surfaced. -/
theorem c6_periodicity_rollback (st : UiState) (sel : VatRow) (msg : Str)
    (hsel : st.selectedNumber = some sel)
    (hvalid : sel.periodicity =
      some (periodicityStr (normalizePeriodicity sel.periodicity)))
    (hdiff : normalizePeriodicity sel.periodicity ≠ st.periodicityDraft)
    (hdata : ∀ it ∈ st.data, it.uuid = sel.uuid → it.periodicity = sel.periodicity)
    (hcache : ∀ e ∈ st.dataCache, ∀ it ∈ e.2, it.uuid = sel.uuid →
      it.periodicity = sel.periodicity) :
    savePeriodicity st (.failure msg) =
      { st with
        error := some msg
        periodicityDraft := normalizePeriodicity sel.periodicity } := by
  obtain ⟨data, cache, selN, draft, err, toast, page, ps, tc, tp, chH, chT, chTP, chP⟩ := st
  simp only at hsel hdiff hdata hcache ⊢
  subst hsel
  obtain ⟨suuid, scc, svn, sccr, svnr, sper, snoc, sca, slcd, sref, slcv, slca, slcn⟩ := sel
  simp only at hvalid hdiff hdata hcache ⊢
  have hdataEq := updateItems_rollback suuid draft (normalizePeriodicity sper) data
    (fun it hit hu => by rw [hdata it hit hu]; exact hvalid)
  have hcacheEq := cacheMap_rollback suuid draft (normalizePeriodicity sper) cache
    (fun e he it hit hu => by rw [hcache e he it hit hu]; exact hvalid)
  set cur := normalizePeriodicity sper with hcur
  simp only [savePeriodicity, applyPeriodicityLocally, if_neg hdiff]
  simp only [UiState.mk.injEq]
  rw [hvalid]
  simp [normalizePeriodicity_periodicityStr, hdataEq, hcacheEq, ← List.map_map]

/-- The entry and component state for the rollback witness. -/
def weeklyRow : VatRow where
  uuid := "u1".data
  periodicity := some "weekly".data

def c6state : UiState where
  data := [weeklyRow]
  dataCache := [(1, [weeklyRow])]
  selectedNumber := some weeklyRow
  periodicityDraft := .daily

theorem c6_periodicity_rollback_witness :
    savePeriodicity c6state (.failure "boom".data) =
      { c6state with
        error := some "boom".data
        periodicityDraft := Periodicity.weekly } :=
  c6_periodicity_rollback c6state weeklyRow "boom".data rfl (by decide)
    (by decide) (by decide) (by decide)

/-- The selected entry for the soft-delete scenarios. -/
def delRow : VatRow where
  uuid := "d1".data

/-- One single entry left, on page 1 of 1. -/
def c7oneLeft : UiState where
  data := [delRow]
  dataCache := [(1, [delRow])]
  selectedNumber := some delRow
  totalCount := 1
  totalPages := 1
  page := 1
  pageSize := 15

/-- C7 counterexample: deleting the last remaining entry (N = 1).  The
claim's recomputed total page count `ceil((N-1)/pageSize)` is 0, but the
code clamps with `Math.max(1, …)` and sets total pages to 1. -/
theorem c7_soft_delete_counterexample :
    (softDeleteVatNumber c7oneLeft .success).totalCount = 0 ∧
    (softDeleteVatNumber c7oneLeft .success).totalPages = 1 ∧
    (c7oneLeft.totalCount - 1 + c7oneLeft.pageSize - 1) / c7oneLeft.pageSize = 0 := by
  decide

/-- C7 amended: after a successful soft delete of the selected entry E
on page P with N rows total, E appears neither in the current page array
nor in any cached page, the detail view is cleared, the total count is
N-1, total pages is recomputed as `max 1 (ceil((N-1)/pageSize))` (the
code clamps the claim's bare ceiling to at least one page), and the
active page moves to the last valid page exactly when P exceeds it. -/
theorem c7_soft_delete_removal (st : UiState) (sel : VatRow)
    (hsel : st.selectedNumber = some sel)
    (hN : 1 ≤ st.totalCount) (hps : 1 ≤ st.pageSize) :
    (∀ it ∈ (softDeleteVatNumber st .success).data, it.uuid ≠ sel.uuid) ∧
    (∀ e ∈ (softDeleteVatNumber st .success).dataCache, ∀ it ∈ e.2,
      it.uuid ≠ sel.uuid) ∧
    (softDeleteVatNumber st .success).selectedNumber = none ∧
    (softDeleteVatNumber st .success).totalCount = st.totalCount - 1 ∧
    (softDeleteVatNumber st .success).totalPages =
      max 1 ((st.totalCount - 1 + st.pageSize - 1) / st.pageSize) ∧
    (st.page > (softDeleteVatNumber st .success).totalPages →
      (softDeleteVatNumber st .success).page =
        (softDeleteVatNumber st .success).totalPages) ∧
    (st.page ≤ (softDeleteVatNumber st .success).totalPages →
      (softDeleteVatNumber st .success).page = st.page) := by
  obtain ⟨data, cache, selN, draft, err, toast, page, ps, tc, tp, chH, chT, chTP, chP⟩ := st
  simp only at hsel hN hps ⊢
  subst hsel
  simp only [softDeleteVatNumber, removeMonitoredNumberLocally]
  refine ⟨?_, ?_, ?_, ?_, ?_, ?_, ?_⟩
  · intro it hit
    simp only [List.mem_filter, decide_not] at hit
    simpa using hit.2
  · intro e he it hit
    simp only [List.mem_map] at he
    obtain ⟨e0, _, rfl⟩ := he
    simp only [List.mem_filter, decide_not] at hit
    simpa using hit.2
  · simp
  · trivial
  · trivial
  · intro hgt
    rw [if_pos hgt]
  · intro hle
    rw [if_neg (Nat.not_lt.mpr hle)]

/-- Sixteen entries over two pages, viewing page 2 with the last entry
selected. -/
def c7pageTwo : UiState where
  data := [delRow]
  dataCache := [(1, []), (2, [delRow])]
  selectedNumber := some delRow
  totalCount := 16
  totalPages := 2
  page := 2
  pageSize := 15

theorem c7_soft_delete_removal_witness :
    (softDeleteVatNumber c7pageTwo .success).selectedNumber = none ∧
    (softDeleteVatNumber c7pageTwo .success).totalCount = 15 ∧
    (softDeleteVatNumber c7pageTwo .success).totalPages = 1 ∧
    (softDeleteVatNumber c7pageTwo .success).page = 1 := by
  obtain ⟨-, -, h3, h4, h5, h6, -⟩ :=
    c7_soft_delete_removal c7pageTwo delRow rfl (by decide) (by decide)
  exact ⟨h3, h4, h5.trans (by decide), (h6 (by decide)).trans (h5.trans (by decide))⟩

/-- C8 counterexample: a successful load of page 5 while the total page
count is 1 (the component never re-validates the requested page against
a shrunken result set).  The claimed prefetch set
`{3,4,6,7} ∩ [1,1]` minus the (empty) cache is empty, yet the code
attempts pages 4 and 3 — below-neighbors are only checked against the
lower bound, never against the total page count. -/
theorem c8_prefetch_counterexample :
    prefetchTargets [] 5 1 = [4, 3] ∧ ¬(4 : Nat) ≤ 1 ∧ ¬(3 : Nat) ≤ 1 := by
  decide

/-- C8 amended: when the loaded page P lies within `[1, T]`, the set of
pages for which a prefetch is attempted is exactly
`{P-2, P-1, P+1, P+2} ∩ [1, T]` minus the pages already cached (outside
that regime the code skips only the bound checks `P-i > 0` and
`P+i ≤ T`), and every prefetch fetches with `fetchRawData` under the
same query state as page P. -/
theorem c8_prefetch_boundedness (cachedPages : List Nat) (P T q : Nat)
    (hP : 1 ≤ P) (hPT : P ≤ T) :
    (q ∈ prefetchTargets cachedPages P T ↔
      ((q + 1 = P ∨ q + 2 = P ∨ q = P + 1 ∨ q = P + 2) ∧ 1 ≤ q ∧ q ≤ T ∧
        q ∉ cachedPages)) ∧
    (∀ st db, prefetchRuns st db cachedPages P T =
      (prefetchTargets cachedPages P T).map (fun p => (p, fetchRawData st db p))) := by
  refine ⟨?_, fun st db => rfl⟩
  have hmem_ite : ∀ (c : Prop) [Decidable c] (x : Nat),
      (q ∈ if c then [x] else []) ↔ (c ∧ q = x) := by
    intro c _ x
    split <;> simp_all
  simp only [prefetchTargets, List.mem_filter, List.mem_append, hmem_ite,
    Bool.not_eq_true', decide_eq_false_iff_not]
  constructor
  · rintro ⟨h1, h2⟩
    refine ⟨?_, ?_, ?_, h2⟩ <;> omega
  · rintro ⟨hd, hq1, hqT, hnc⟩
    refine ⟨?_, hnc⟩
    omega

theorem c8_prefetch_boundedness_witness :
    (6 ∈ prefetchTargets [3] 4 10 ↔
      ((6 + 1 = 4 ∨ 6 + 2 = 4 ∨ 6 = 4 + 1 ∨ 6 = 4 + 2) ∧ 1 ≤ 6 ∧ 6 ≤ 10 ∧
        6 ∉ [3])) :=
  (c8_prefetch_boundedness [3] 4 10 6 (by decide) (by decide)).1

/-- A row with exactly three checks recorded. -/
def threeChecksRow : VatRow where
  uuid := "u".data
  number_of_checks := some 3

/-- C9 counterexample: the filter value `3.5` does not parse as an
integer, so per the claim no filter would be applied and the predicate
would behave as if the column filter were absent; but `Number("3.5")`
is not NaN, so the code compiles an equality predicate against 3.5,
which the row with 3 checks fails. -/
theorem c9_checks_filter_counterexample :
    applyDirectColumnFilters { number_of_checks := "3.5".data } threeChecksRow
      = false ∧
    applyDirectColumnFilters {} threeChecksRow = true := by
  decide

theorem condNumberOfChecks_empty (row : VatRow) :
    condNumberOfChecks [] row = true := rfl

/-- C9 amended: the check-count column filter is dropped (the compiled
predicate coincides with the filter-absent one) exactly when the value
fails the JS `Number` conversion; when the value converts to a
non-integral finite number an equality predicate is still applied and no
row can satisfy it; when it converts to a finite number the compiled
condition holds exactly on rows whose check count equals that number. -/
theorem c9_checks_filter (v : Str) (row : VatRow) (f : ColumnFilters) :
    (jsNumber (trim v) = none →
      applyDirectColumnFilters { f with number_of_checks := v } row =
        applyDirectColumnFilters { f with number_of_checks := [] } row) ∧
    (∀ x : ScaledDec, trim v ≠ [] → jsNumber (trim v) = some (.fin x) →
      (∀ m : ℤ, x.toRat ≠ (m : ℚ)) →
      applyDirectColumnFilters { f with number_of_checks := v } row = false) ∧
    (∀ (x : ScaledDec) (n : ℤ), trim v ≠ [] → jsNumber (trim v) = some (.fin x) →
      row.number_of_checks = some n →
      (condNumberOfChecks v row = true ↔ (n : ℚ) = x.toRat)) := by
  refine ⟨fun hnan => ?_, fun x hv hq hnon => ?_, fun x n hv hq hcol => ?_⟩
  · have h1 : condNumberOfChecks v row = true := by
      unfold condNumberOfChecks
      by_cases hv : trim v = []
      · simp [hv]
      · simp [hv, hnan]
    simp [applyDirectColumnFilters, h1, condNumberOfChecks_empty]
  · have h1 : condNumberOfChecks v row = false := by
      simp only [condNumberOfChecks]
      rw [if_neg hv, hq]
      cases hcol : row.number_of_checks with
      | none => rfl
      | some n =>
          simp only [sqlEqIntNum]
          cases h : scaledEq x ⟨n, 0⟩ with
          | false => rfl
          | true =>
              exact absurd
                (((scaledEq_iff_toRat x ⟨n, 0⟩).mp h).trans (scaledInt_toRat n))
                (hnon n)
    simp [applyDirectColumnFilters, h1]
  · simp only [condNumberOfChecks]
    rw [if_neg hv, hq, hcol]
    simp only [sqlEqIntNum]
    rw [scaledEq_iff_toRat, scaledInt_toRat]
    exact eq_comm

theorem c9_checks_filter_witness :
    (applyDirectColumnFilters { number_of_checks := "abc".data } threeChecksRow =
      applyDirectColumnFilters { number_of_checks := [] } threeChecksRow) ∧
    applyDirectColumnFilters { number_of_checks := "3.5".data } threeChecksRow
      = false ∧
    (condNumberOfChecks "3".data threeChecksRow = true ↔
      ((3 : ℤ) : ℚ) = (⟨3, 0⟩ : ScaledDec).toRat) :=
  ⟨(c9_checks_filter "abc".data threeChecksRow {}).1 (by decide),
    (c9_checks_filter "3.5".data threeChecksRow {}).2.1 ⟨35, -1⟩ (by decide)
      (by decide)
      (by
        intro m h
        rw [ScaledDec.toRat] at h
        rw [show ((-1 : ℤ)) = -(1 : ℤ) from rfl, zpow_neg, zpow_one] at h
        have h2 : (35 : ℚ) = m * 10 := by
          field_simp at h
          linarith
        have h3 : (35 : ℤ) = m * 10 := by exact_mod_cast h2
        omega),
    (c9_checks_filter "3".data threeChecksRow {}).2.2 ⟨3, 0⟩ 3 (by decide)
      (by decide) (by decide)⟩

set_option maxRecDepth 10000

/-- The i-th of 2001 entries that all match the search term `A` by VAT
number; uuids are pairwise distinct (`aa…a` of length `i+1`). -/
def mkBigRow (i : Nat) : VatRow where
  uuid := List.replicate (i + 1) 'a'
  vat_number := ['A']

def bigDb : Db := ⟨(List.range 2001).map mkBigRow, []⟩

theorem bigRow_matches (i : Nat) :
    vatNumbersSearchPred ['A'] .search (mkBigRow i) = true := rfl

theorem trim_replicate_a (n : Nat) :
    trim (List.replicate n 'a') = List.replicate n 'a' :=
  trim_of_no_ws _ (fun c hc => by rw [List.eq_of_mem_replicate hc]; rfl)

theorem bigDb_filter_take :
    ((bigDb.vatNumbers.filter (vatNumbersSearchPred ['A'] .search)).take 2000) =
      (List.range 2000).map mkBigRow := by
  have hfil : bigDb.vatNumbers.filter (vatNumbersSearchPred ['A'] .search) =
      bigDb.vatNumbers :=
    List.filter_eq_self.mpr (fun r hr => by
      obtain ⟨i, _, rfl⟩ := List.mem_map.mp hr
      exact bigRow_matches i)
  rw [hfil]
  show ((List.range 2001).map mkBigRow).take 2000 = _
  rw [← List.map_take, List.take_range]
  norm_num

/-- C10: each of the Search Resolver's two lookups returns at most 2000
rows, the combined allow-list holds at most 4000 identifiers, and a term
matching more than 2000 rows in a collection silently omits matching
entries: in a store of 2001 matching entries, the 2001st row matches the
term yet its uuid is absent from the resolved allow-list. -/
theorem c10_resolver_row_cap :
    (∀ term mode db,
      (fetchMatchingVatUuidsFromVatNumbers term mode db).length ≤ 2000) ∧
    (∀ term db, (fetchMatchingVatUuidsFromChecks term db).length ≤ 2000) ∧
    (∀ term db, (resolveVatUuidsForSearchTerm term db).length ≤ 4000) ∧
    (∀ term db, (resolveVatUuidsForEntityFilter term db).length ≤ 4000) ∧
    (mkBigRow 2000 ∈ bigDb.vatNumbers ∧
      vatNumbersSearchPred ['A'] .search (mkBigRow 2000) = true ∧
      (mkBigRow 2000).uuid ∉ resolveVatUuidsForSearchTerm ['A'] bigDb) := by
  have hvn : ∀ term mode db,
      (fetchMatchingVatUuidsFromVatNumbers term mode db).length ≤ 2000 := by
    intro term mode db
    unfold fetchMatchingVatUuidsFromVatNumbers
    split
    · simp
    · refine le_trans (toUniqueUuids_length_le _) ?_
      rw [List.length_map]
      exact List.length_take_le _ _
  have hck : ∀ term db,
      (fetchMatchingVatUuidsFromChecks term db).length ≤ 2000 := by
    intro term db
    unfold fetchMatchingVatUuidsFromChecks
    split
    · simp
    · refine le_trans (toUniqueUuids_length_le _) ?_
      rw [List.length_map]
      exact List.length_take_le _ _
  have hres : ∀ term db, (resolveVatUuidsForSearchTerm term db).length ≤ 4000 := by
    intro term db
    unfold resolveVatUuidsForSearchTerm
    refine le_trans (toUniqueUuids_length_le _) ?_
    rw [List.length_map, List.length_append]
    exact Nat.add_le_add (hvn term .search db) (hck term db)
  have hrese : ∀ term db,
      (resolveVatUuidsForEntityFilter term db).length ≤ 4000 := by
    intro term db
    unfold resolveVatUuidsForEntityFilter
    refine le_trans (toUniqueUuids_length_le _) ?_
    rw [List.length_map, List.length_append]
    exact Nat.add_le_add (hvn term .entity db) (hck term db)
  refine ⟨hvn, hck, hres, hrese, ?_, bigRow_matches 2000, ?_⟩
  · exact List.mem_map.mpr ⟨2000, List.mem_range.mpr (by norm_num), rfl⟩
  · intro hmem
    obtain ⟨s, hs, hus⟩ := mem_toUniqueUuids _ hmem
    obtain ⟨w, hw, hws⟩ := List.mem_map.mp hs
    have hws' : w = s := by simpa using hws
    subst hws'
    rw [List.mem_append] at hw
    have hwA : w ∈ fetchMatchingVatUuidsFromVatNumbers ['A'] .search bigDb := by
      rcases hw with h | h
      · exact h
      · cases h
    have hwA' : w ∈ toUniqueUuids
        (((bigDb.vatNumbers.filter (vatNumbersSearchPred ['A'] .search)).take
          2000).map (fun r => some r.uuid)) := by
      unfold fetchMatchingVatUuidsFromVatNumbers at hwA
      rw [if_neg (by decide)] at hwA
      exact hwA
    obtain ⟨t, ht, hwt⟩ := mem_toUniqueUuids _ hwA'
    obtain ⟨r, hr, hrt⟩ := List.mem_map.mp ht
    rw [bigDb_filter_take] at hr
    obtain ⟨i, hi, rfl⟩ := List.mem_map.mp hr
    have hlen : t = List.replicate (i + 1) 'a' := by
      simpa [mkBigRow] using hrt.symm
    have hu : (mkBigRow 2000).uuid = List.replicate (i + 1) 'a' := by
      rw [hus, hwt, hlen, trim_replicate_a, trim_replicate_a]
    have : (2001 : Nat) = i + 1 := by
      have := congrArg List.length hu
      simpa [mkBigRow] using this
    rw [List.mem_range] at hi
    omega

end Front
